import Mathlib

/-!
Shallow embedding of the ranking aggregation and cache subsystem of
`spotify-artist-recency-ranker` (src/api/search-artist.js).

The source file contains three variants of the server:
  * a standalone serverless handler (lines 37-71), called `handlerRoute` below;
  * a server whose `getArtistsRanking` (lines 137-187) holds the cache check
    inside the aggregation function, modelled by `getArtistsRankingA` /
    `getArtistsRankingAgg` / `acceptsA` / `mkRecordA`;
  * a server whose `getRankedArtists` (lines 325-384) is pure aggregation with
    the cache handled in the route (lines 430-450), modelled by
    `getRankedArtistsB` / `getRankedArtistsAgg` / `acceptsB` / `mkRecordB`.

JavaScript dynamic values are modelled with `Option`: a missing field is
`none` and JavaScript numbers are `Int` (fractional and NaN values are out of
scope).  Truthiness of a possibly-missing string is "present and non-empty";
of a possibly-missing number, "present and non-zero"; an object or array is
truthy whenever present.
-/

namespace SpotifyRanker

/-- JS truthiness of a possibly-undefined string. -/
def truthyStr : Option String → Bool
  | some s => s != ""
  | none => false

/-- JS truthiness of a possibly-undefined number. -/
def truthyInt : Option Int → Bool
  | some n => n != 0
  | none => false

/-- One element of a raw artist's `images` array: `{ width, url }`. -/
structure RawImage where
  width : Option Int
  url : Option String
deriving DecidableEq

/-- A raw artist's `followers` object: `{ total }`. -/
structure RawFollowers where
  total : Option Int
deriving DecidableEq

/-- A raw artist object as delivered by the upstream search payload.  Every
field may be absent. -/
structure RawArtist where
  id : Option String
  name : Option String
  followers : Option RawFollowers
  popularity : Option Int
  images : Option (List RawImage)
deriving DecidableEq

/-- The record stored in the ranking map:
`{ id, name, followers, popularity, imageUrl }`.  `followers` and `imageUrl`
keep `Option` because the second server variant copies them without a
presence check, so they can be `undefined` in JavaScript. -/
structure ArtistRecord where
  id : String
  name : String
  followers : Option Int
  popularity : Int
  imageUrl : Option String
deriving DecidableEq

/-- Acceptance test of `getArtistsRanking` (lines 163-169):
`artist?.id && artist?.name && artist?.followers?.total &&
typeof artist.popularity === 'number' && artist?.images?.[0]?.url`. -/
def acceptsA (a : RawArtist) : Bool :=
  truthyStr a.id && truthyStr a.name &&
    truthyInt (a.followers.bind (fun f => f.total)) &&
    a.popularity.isSome &&
    truthyStr ((a.images.bind (fun l => l.head?)).bind (fun i => i.url))

/-- Record constructed by `getArtistsRanking` (lines 170-176); in particular
`imageUrl: artist.images[0].url`. -/
def mkRecordA (a : RawArtist) : ArtistRecord :=
  { id := a.id.getD "", name := a.name.getD "",
    followers := a.followers.bind (fun f => f.total),
    popularity := a.popularity.getD 0,
    imageUrl := (a.images.bind (fun l => l.head?)).bind (fun i => i.url) }

/-- Acceptance test of `getRankedArtists` (line 357):
`artist.id && artist.name && artist.images && artist.images.length > 0 &&
artist.followers && typeof artist.popularity === 'number'`.  Note that only
the `followers` object, not `followers.total`, is tested. -/
def acceptsB (a : RawArtist) : Bool :=
  truthyStr a.id && truthyStr a.name && a.images.isSome &&
    decide (0 < (a.images.getD []).length) &&
    a.followers.isSome && a.popularity.isSome

/-- Image choice of `getRankedArtists` (line 359):
`artist.images.find(img => img.width === 64) ||
artist.images[artist.images.length - 1] || artist.images[0]`.
An image object is always truthy, so each `||` falls through exactly when the
previous expression is `undefined`. -/
def chooseImage (l : List RawImage) : Option RawImage :=
  ((l.find? (fun i => i.width == some 64)).orElse (fun _ => l.getLast?)).orElse
    (fun _ => l.head?)

/-- Record constructed by `getRankedArtists` (lines 360-366).  The JavaScript
guard `artist.images.length > 0 ? chosenImage.url : placeholder` is rendered
as a match on `chooseImage`, which is `none` exactly when the image list is
empty. -/
def mkRecordB (a : RawArtist) : ArtistRecord :=
  { id := a.id.getD "", name := a.name.getD "",
    followers := a.followers.bind (fun f => f.total),
    popularity := a.popularity.getD 0,
    imageUrl :=
      match chooseImage (a.images.getD []) with
      | some img => img.url
      | none => some "https://via.placeholder.com/150?text=No+Image" }

/-- The key used by both aggregation loops: `artist.id`. -/
def keyOf (a : RawArtist) : String := a.id.getD ""

/-- `Map.set` on a JavaScript `Map` represented as an insertion-ordered
association list: an existing key keeps its position and gets the new value,
a new key is appended. -/
def setKV (m : List (String × ArtistRecord)) (k : String) (v : ArtistRecord) :
    List (String × ArtistRecord) :=
  if m.any (fun p => p.1 == k) then
    m.map (fun p => if p.1 == k then (k, v) else p)
  else m ++ [(k, v)]

/-- One iteration of the aggregation loops: accepted artists are written into
the map, others are skipped. -/
def insertArtist (accept : RawArtist → Bool) (mk : RawArtist → ArtistRecord)
    (m : List (String × ArtistRecord)) (a : RawArtist) :
    List (String × ArtistRecord) :=
  if accept a then setKV m (keyOf a) (mk a) else m

/-- The nested `for (group of results) for (artist of group)` loops of both
aggregations (lines 161-179 and 354-369). -/
def dedupLoop (accept : RawArtist → Bool) (mk : RawArtist → ArtistRecord)
    (groups : List (List RawArtist)) : List (String × ArtistRecord) :=
  groups.foldl (fun m g => g.foldl (insertArtist accept mk) m) []

def RANKING_SIZE : Nat := 100

/-- The sort comparator `(a, b) => b.popularity - a.popularity`: `a` sorts no
later than `b` exactly when `b.popularity <= a.popularity`. -/
def popDescend (a b : ArtistRecord) : Bool := decide (b.popularity ≤ a.popularity)

/-- `Array.from(map.values())` then `sort` then `slice(0, RANKING_SIZE)`
(lines 181-186 and 372-378).  JavaScript `Array.prototype.sort` is stable, as
is `List.mergeSort`. -/
def sortRank (l : List ArtistRecord) : List ArtistRecord :=
  (l.mergeSort popDescend).take RANKING_SIZE

/-- Aggregation pipeline of `getArtistsRanking` on already-fetched groups. -/
def getArtistsRankingAgg (groups : List (List RawArtist)) : List ArtistRecord :=
  sortRank ((dedupLoop acceptsA mkRecordA groups).map Prod.snd)

/-- Aggregation pipeline of `getRankedArtists` on already-fetched groups. -/
def getRankedArtistsAgg (groups : List (List RawArtist)) : List ArtistRecord :=
  sortRank ((dedupLoop acceptsB mkRecordB groups).map Prod.snd)

/-- The `artists` member of a search payload: `{ items }`, where `items` may
be absent. -/
structure ArtistsPage where
  items : Option (List RawArtist)
deriving DecidableEq

/-- A raw search payload `response.data`: `{ artists }`, where `artists` may
be absent. -/
structure SearchPayload where
  artists : Option ArtistsPage
deriving DecidableEq

/-- One fan-out slot of `getArtistsRanking` (lines 151-155):
`axios.get(url).then(res => res.data.artists.items || []).catch(() => [])`.
A rejected request is caught and yields `[]`.  A payload without `artists`
throws inside the `then` handler (property access on `undefined`), which the
following `catch` also turns into `[]`; a missing `items` falls to `[]` via
`|| []`. -/
def slotA (r : Except Unit SearchPayload) : List RawArtist :=
  match r with
  | .error _ => []
  | .ok p =>
    match p.artists with
    | none => []
    | some pg => pg.items.getD []

/-- One fan-out slot of `getRankedArtists` (lines 338-345):
`axios.get(url).then(response => response.data.artists.items).catch(... [])`.
Unlike `slotA` there is no `|| []`, so a payload whose `artists` object is
present but lacks `items` resolves to `undefined` (`none` here). -/
def slotB (r : Except Unit SearchPayload) : Option (List RawArtist) :=
  match r with
  | .error _ => some []
  | .ok p =>
    match p.artists with
    | none => some []
    | some pg => pg.items

/-- Fan-out plus aggregation of `getArtistsRanking`, given the settled
upstream responses.  Every slot contributes a genuine list, so this phase
cannot fail. -/
def computeA (responses : List (Except Unit SearchPayload)) : List ArtistRecord :=
  getArtistsRankingAgg (responses.map slotA)

/-- Processing of the settled pages in `getRankedArtists` (lines 354-378).
Iterating `for (artist of artistsPage)` over an `undefined` page throws a
TypeError which the surrounding `try` converts into the function's failure,
modelled as `.error ()`. -/
def processPagesB (pages : List (Option (List RawArtist))) :
    Except Unit (List ArtistRecord) :=
  if pages.all (fun o => o.isSome) then
    .ok (getRankedArtistsAgg (pages.map (fun o => o.getD [])))
  else .error ()

/-- Fan-out plus aggregation of `getRankedArtists`, given the settled
upstream responses. -/
def computeB (responses : List (Except Unit SearchPayload)) :
    Except Unit (List ArtistRecord) :=
  processPagesB (responses.map slotB)

def CACHE_LIFETIME : Nat := 1000 * 60 * 60

/-- The module-level cache: `cachedRanking` and `lastCacheTime`. -/
structure CacheState where
  cachedRanking : Option (List ArtistRecord)
  lastCacheTime : Nat
deriving DecidableEq

/-- The environment a recomputation runs against: whether
`getSpotifyAccessToken` succeeds, and the settled fan-out responses. -/
structure FanoutEnv where
  tokenOk : Bool
  responses : List (Except Unit SearchPayload)

/-- `getArtistsRanking` (lines 137-187) as a state transformer.  `now` is
`Date.now()` at entry, `after` is `Date.now()` at line 185 (after the
fan-out).  Returns the result (or the propagated token error), the new cache
state, and whether a fan-out was triggered.  The token is fetched before any
cache mutation, so a token failure leaves the state unchanged. -/
def getArtistsRankingA (env : FanoutEnv) (now after : Nat) (s : CacheState) :
    Except Unit (List ArtistRecord) × CacheState × Bool :=
  if s.cachedRanking.isSome ∧ now < s.lastCacheTime + CACHE_LIFETIME then
    (.ok (s.cachedRanking.getD []), s, false)
  else if env.tokenOk then
    let ranking := computeA env.responses
    (.ok ranking, ⟨some ranking, after⟩, true)
  else (.error (), s, false)

/-- Response of the ranking endpoint. -/
inductive RankingResponse where
  | payload (r : List ArtistRecord)
  | serverError (msg : String)
deriving DecidableEq

/-- Route `GET /api/artists-ranking` of the first server (lines 195-203):
serve `getArtistsRanking()`, or 500 on error. -/
def artistsRankingRouteA (env : FanoutEnv) (now after : Nat) (s : CacheState) :
    RankingResponse × CacheState × Bool :=
  match getArtistsRankingA env now after s with
  | (.ok r, s2, tri) => (.payload r, s2, tri)
  | (.error _, s2, tri) => (.serverError "Something went wrong.", s2, tri)

/-- `getRankedArtists` (lines 325-384): token fetch, then fan-out and
aggregation; any failure propagates as an error. -/
def getRankedArtistsB (env : FanoutEnv) : Except Unit (List ArtistRecord) :=
  if env.tokenOk then computeB env.responses else .error ()

/-- Route `GET /api/artists-ranking` of the second server (lines 430-450):
serve from cache when fresh, otherwise recompute; on success store the result
with `lastCacheTime = now`, on failure answer 500 and leave the cache
untouched. -/
def artistsRankingRouteB (env : FanoutEnv) (now : Nat) (s : CacheState) :
    RankingResponse × CacheState × Bool :=
  if s.cachedRanking.isSome ∧ now < s.lastCacheTime + CACHE_LIFETIME then
    (.payload (s.cachedRanking.getD []), s, false)
  else
    match getRankedArtistsB env with
    | .ok r => (.payload r, ⟨some r, now⟩, true)
    | .error _ => (.serverError "Failed to retrieve artist ranking.", s, true)

/-- `findIndex(a => a.id === artist.id)` on the ranking: the index of the
first match, `-1` when absent.  `artist.id` may be `undefined`, hence the
`Option` comparison. -/
def findIndexJS (ranking : List ArtistRecord) (aid : Option String) : Int :=
  match ranking.findIdx? (fun r => aid == some r.id) with
  | some i => (i : Int)
  | none => -1

/-- Rank computation of the first server's lookup route (lines 222, 230):
`const rank = topArtists.findIndex(...) + 1; rank > 0 ? rank : -1`. -/
def rankLookupA (ranking : List ArtistRecord) (aid : Option String) : Int :=
  let rank := findIndexJS ranking aid + 1
  if rank > 0 then rank else -1

/-- `rankInTop100` of the standalone serverless handler (line 65): always
`-1` ("Let frontend compare with list if needed"). -/
def handlerRankInTop100 (_artist : RawArtist) : Int := -1

/-- `artist.images?.[0]?.url || 'https://via.placeholder.com/150'`: an empty
string is falsy, so it also falls to the placeholder. -/
def urlOrPlaceholder (u : Option String) : String :=
  match u with
  | some s => if s = "" then "https://via.placeholder.com/150" else s
  | none => "https://via.placeholder.com/150"

/-- Response of a lookup route. -/
inductive LookupResponse where
  | methodNotAllowed (msg : String)
  | badRequest (msg : String)
  | notFound (msg : String)
  | found (id name : String) (popularity : Int) (followers : Int)
      (imageUrl : String) (rankInTop100 : Int)
  | serverError (msg : String)
deriving DecidableEq

/-- Environment of one lookup request: whether the token fetch succeeds, the
limit-1 upstream search outcome, and the outcome of `getArtistsRanking()`
when the route reads the ranking. -/
structure LookupEnv where
  tokenOk : Bool
  searchResult : Except Unit (Option RawArtist)
  rankingResult : Except Unit (List ArtistRecord)

/-- Route `GET /api/search-artist` of the first server (lines 205-236).  The
returned flag is true exactly when the request proceeds past the name guard
into token acquisition and the upstream search. -/
def searchRouteA (name : Option String) (env : LookupEnv) :
    LookupResponse × Bool :=
  if !truthyStr name then (.badRequest "No artist name provided", false)
  else if !env.tokenOk then (.serverError "Search failed", true)
  else
    match env.searchResult with
    | .error _ => (.serverError "Search failed", true)
    | .ok none => (.notFound "Artist not found", true)
    | .ok (some artist) =>
      match env.rankingResult with
      | .error _ => (.serverError "Search failed", true)
      | .ok topArtists =>
        (.found (artist.id.getD "") (artist.name.getD "")
          (artist.popularity.getD 0)
          ((artist.followers.bind (fun f => f.total)).getD 0)
          (urlOrPlaceholder ((artist.images.bind (fun l => l.head?)).bind
            (fun i => i.url)))
          (rankLookupA topArtists artist.id), true)

/-- The standalone serverless handler (lines 37-71).  Same name guard and
search as `searchRouteA`, but no ranking read: `rankInTop100` is the constant
`handlerRankInTop100`. -/
def handlerRoute (method : String) (name : Option String) (env : LookupEnv) :
    LookupResponse × Bool :=
  if method ≠ "GET" then (.methodNotAllowed "Method not allowed", false)
  else if !truthyStr name then (.badRequest "No artist name provided", false)
  else if !env.tokenOk then (.serverError "Search failed", true)
  else
    match env.searchResult with
    | .error _ => (.serverError "Search failed", true)
    | .ok none => (.notFound "Artist not found", true)
    | .ok (some artist) =>
      (.found (artist.id.getD "") (artist.name.getD "")
        (artist.popularity.getD 0)
        ((artist.followers.bind (fun f => f.total)).getD 0)
        (urlOrPlaceholder ((artist.images.bind (fun l => l.head?)).bind
          (fun i => i.url)))
        (handlerRankInTop100 artist), true)

/-- Modelled from the spec (§4.3, canonical image selection): "prefer an
image whose reported width equals 64, else fall back to the last image in the
provided list, else the first", taking the url of the chosen image.  Used
only to compare the code's image choice against the spec's rule. -/
def specCanonicalUrl (l : List RawImage) : Option String :=
  match l.find? (fun i => i.width == some 64) with
  | some i => i.url
  | none =>
    match l.getLast? with
    | some i => i.url
    | none => l.head?.bind (fun i => i.url)

/-! ### Sample fixtures used by concrete witnesses and counterexamples -/

/-- A 300-wide image. -/
def imgWide : RawImage := ⟨some 300, some "urlA"⟩

/-- A 64-wide image. -/
def img64 : RawImage := ⟨some 64, some "urlB"⟩

/-- A fully-populated raw artist whose image list has a 64-wide image in
second position. -/
def rawX : RawArtist := ⟨some "x", some "Artist X", some ⟨some 3⟩, some 90, some [imgWide, img64]⟩

/-- A fully-populated raw artist with a single image. -/
def rawY : RawArtist := ⟨some "y", some "Artist Y", some ⟨some 7⟩, some 80, some [imgWide]⟩

/-! ### Sorting helpers -/

theorem popDescend_trans (a b c : ArtistRecord) (h1 : popDescend a b = true)
    (h2 : popDescend b c = true) : popDescend a c = true := by
  simp only [popDescend, decide_eq_true_eq] at h1 h2 ⊢
  exact le_trans h2 h1

theorem popDescend_total (a b : ArtistRecord) :
    (popDescend a b || popDescend b a) = true := by
  simp only [popDescend, Bool.or_eq_true, decide_eq_true_eq]
  exact le_total b.popularity a.popularity

theorem sortRank_pairwise (l : List ArtistRecord) :
    List.Pairwise (fun x y => y.popularity ≤ x.popularity) (sortRank l) := by
  have h := @List.sorted_mergeSort ArtistRecord popDescend popDescend_trans popDescend_total l
  have h2 : List.Pairwise (fun x y => y.popularity ≤ x.popularity)
      (l.mergeSort popDescend) :=
    h.imp (fun hab => by simpa [popDescend] using hab)
  exact h2.sublist (List.take_sublist _ _)

theorem sortRank_length_le (l : List ArtistRecord) : (sortRank l).length ≤ 100 :=
  List.length_take_le _ _

/-- C1: for every sequence of raw result groups, the aggregations of both
server variants return a ranking whose adjacent popularity values are
non-increasing (descending order) and whose length is at most 100, regardless
of input volume. -/
theorem ranking_sorted_and_bounded (groups : List (List RawArtist)) :
    List.Chain' (fun x y => y.popularity ≤ x.popularity) (getArtistsRankingAgg groups) ∧
    (getArtistsRankingAgg groups).length ≤ 100 ∧
    List.Chain' (fun x y => y.popularity ≤ x.popularity) (getRankedArtistsAgg groups) ∧
    (getRankedArtistsAgg groups).length ≤ 100 :=
  ⟨(sortRank_pairwise _).chain', sortRank_length_le _,
   (sortRank_pairwise _).chain', sortRank_length_le _⟩

/-! ### Map lemmas for the deduplication loop -/

/-- `Map.get` on the association-list representation. -/
def lookupKV (m : List (String × ArtistRecord)) (k : String) : Option ArtistRecord :=
  (m.find? (fun p => p.1 == k)).map (fun p => p.2)

theorem lookup_map_update (m : List (String × ArtistRecord)) (k : String)
    (v : ArtistRecord) (hany : m.any (fun p => p.1 == k) = true) :
    lookupKV (m.map (fun q => if q.1 == k then (k, v) else q)) k = some v := by
  induction m with
  | nil => simp at hany
  | cons p t ih =>
    simp only [List.any_cons, Bool.or_eq_true] at hany
    by_cases hp : (p.1 == k) = true
    · have hif : (if (p.1 == k) = true then (k, v) else p) = (k, v) := if_pos hp
      simp only [lookupKV, List.map_cons, List.find?_cons, hif]
      have hkk : (((k, v) : String × ArtistRecord).1 == k) = true := beq_self_eq_true k
      rw [hkk]
      rfl
    · have ht : t.any (fun p => p.1 == k) = true := hany.resolve_left hp
      have hp2 : (p.1 == k) = false := by simpa using hp
      have hif : (if (p.1 == k) = true then (k, v) else p) = p := if_neg hp
      simp only [lookupKV, List.map_cons, List.find?_cons, hif]
      rw [hp2]
      exact ih ht

theorem lookup_map_update_other (m : List (String × ArtistRecord)) (k k2 : String)
    (v : ArtistRecord) (hk : k2 ≠ k) :
    lookupKV (m.map (fun q => if q.1 == k2 then (k2, v) else q)) k = lookupKV m k := by
  induction m with
  | nil => rfl
  | cons p t ih =>
    by_cases hp : (p.1 == k2) = true
    · have hif : (if (p.1 == k2) = true then (k2, v) else p) = (k2, v) := if_pos hp
      have hk2 : (((k2, v) : String × ArtistRecord).1 == k) = false := by simpa using hk
      have hpk : (p.1 == k) = false := by
        simp only [beq_iff_eq] at hp ⊢
        simpa [hp] using hk
      simp only [lookupKV, List.map_cons, List.find?_cons, hif]
      rw [hk2, hpk]
      exact ih
    · have hif : (if (p.1 == k2) = true then (k2, v) else p) = p := if_neg hp
      by_cases hpk : (p.1 == k) = true
      · simp only [lookupKV, List.map_cons, List.find?_cons, hif]
        rw [hpk]
      · have hpk2 : (p.1 == k) = false := by simpa using hpk
        simp only [lookupKV, List.map_cons, List.find?_cons, hif]
        rw [hpk2]
        exact ih

theorem lookup_append_single_same (m : List (String × ArtistRecord)) (k : String)
    (v : ArtistRecord) (hany : m.any (fun p => p.1 == k) = false) :
    lookupKV (m ++ [(k, v)]) k = some v := by
  have hnone : m.find? (fun p => p.1 == k) = none := by
    rw [List.find?_eq_none]
    intro x hx hpx
    have h1 : m.any (fun p => p.1 == k) = true := List.any_eq_true.mpr ⟨x, hx, hpx⟩
    rw [hany] at h1
    exact Bool.false_ne_true h1
  have hkk : (((k, v) : String × ArtistRecord).1 == k) = true := beq_self_eq_true k
  simp only [lookupKV, List.find?_append, hnone, Option.none_or, List.find?_cons]
  rw [hkk]
  rfl

theorem lookup_append_single_other (m : List (String × ArtistRecord)) (k k2 : String)
    (v : ArtistRecord) (hk : k2 ≠ k) :
    lookupKV (m ++ [(k2, v)]) k = lookupKV m k := by
  have hk2 : (((k2, v) : String × ArtistRecord).1 == k) = false := by simpa using hk
  cases hfind : m.find? (fun p => p.1 == k) with
  | some q => simp only [lookupKV, List.find?_append, hfind, Option.or_some]
  | none =>
    simp only [lookupKV, List.find?_append, hfind, Option.none_or, List.find?_cons]
    rw [hk2]
    rfl

theorem lookup_setKV_same (m : List (String × ArtistRecord)) (k : String)
    (v : ArtistRecord) : lookupKV (setKV m k v) k = some v := by
  by_cases hany : m.any (fun p => p.1 == k) = true
  · unfold setKV
    rw [if_pos hany]
    exact lookup_map_update m k v hany
  · have hany2 : m.any (fun p => p.1 == k) = false := by
      rw [← Bool.not_eq_true]
      exact hany
    unfold setKV
    rw [if_neg (by rw [hany2]; exact Bool.false_ne_true)]
    exact lookup_append_single_same m k v hany2

theorem lookup_setKV_other (m : List (String × ArtistRecord)) (k k2 : String)
    (v : ArtistRecord) (hk : k2 ≠ k) : lookupKV (setKV m k2 v) k = lookupKV m k := by
  by_cases hany : m.any (fun p => p.1 == k2) = true
  · unfold setKV
    rw [if_pos hany]
    exact lookup_map_update_other m k k2 v hk
  · have hany2 : m.any (fun p => p.1 == k2) = false := by
      rw [← Bool.not_eq_true]
      exact hany
    unfold setKV
    rw [if_neg (by rw [hany2]; exact Bool.false_ne_true)]
    exact lookup_append_single_other m k k2 v hk

theorem keys_setKV (m : List (String × ArtistRecord)) (k : String) (v : ArtistRecord) :
    (setKV m k v).map Prod.fst =
      if m.any (fun p => p.1 == k) = true then m.map Prod.fst
      else m.map Prod.fst ++ [k] := by
  by_cases hany : m.any (fun p => p.1 == k) = true
  · unfold setKV
    rw [if_pos hany, if_pos hany, List.map_map]
    apply List.map_congr_left
    intro p hp
    by_cases hpk : (p.1 == k) = true
    · have hif : (if (p.1 == k) = true then (k, v) else p) = (k, v) := if_pos hpk
      simp only [Function.comp_apply]
      rw [hif]
      exact (beq_iff_eq.mp hpk).symm
    · have hif : (if (p.1 == k) = true then (k, v) else p) = p := if_neg hpk
      simp only [Function.comp_apply]
      rw [hif]
  · unfold setKV
    rw [if_neg hany, if_neg hany, List.map_append]
    rfl

theorem nodup_keys_setKV (m : List (String × ArtistRecord)) (k : String)
    (v : ArtistRecord) (h : (m.map Prod.fst).Nodup) :
    ((setKV m k v).map Prod.fst).Nodup := by
  rw [keys_setKV]
  by_cases hany : m.any (fun p => p.1 == k) = true
  · rw [if_pos hany]
    exact h
  · rw [if_neg hany]
    have hk : k ∉ m.map Prod.fst := by
      intro hmem
      rcases List.mem_map.mp hmem with ⟨p, hp, hfst⟩
      exact hany (List.any_eq_true.mpr
        ⟨p, hp, by rw [show p.1 = k from hfst]; exact beq_self_eq_true k⟩)
    simp [List.nodup_append, h, hk]

theorem mem_setKV (m : List (String × ArtistRecord)) (k : String)
    (v : ArtistRecord) (p : String × ArtistRecord) (hp : p ∈ setKV m k v) :
    p ∈ m ∨ p = (k, v) := by
  unfold setKV at hp
  by_cases hany : m.any (fun q => q.1 == k) = true
  · rw [if_pos hany] at hp
    rcases List.mem_map.mp hp with ⟨q, hq, hfq⟩
    by_cases hqk : (q.1 == k) = true
    · right
      rw [← hfq, if_pos hqk]
    · left
      rw [← hfq, if_neg hqk]
      exact hq
  · rw [if_neg hany] at hp
    rcases List.mem_append.mp hp with h | h
    · exact Or.inl h
    · right
      simpa using h

theorem dedupLoop_eq_foldl (accept : RawArtist → Bool) (mk : RawArtist → ArtistRecord)
    (groups : List (List RawArtist)) :
    dedupLoop accept mk groups = groups.flatten.foldl (insertArtist accept mk) [] :=
  (List.foldl_flatten (insertArtist accept mk) [] groups).symm

theorem lookup_foldl_insert (accept : RawArtist → Bool) (mk : RawArtist → ArtistRecord)
    (l : List RawArtist) (m : List (String × ArtistRecord)) (k : String) :
    lookupKV (l.foldl (insertArtist accept mk) m) k =
      match (l.filter (fun a => accept a && (keyOf a == k))).getLast? with
      | some a => some (mk a)
      | none => lookupKV m k := by
  induction l generalizing m with
  | nil => simp
  | cons a t ih =>
    rw [List.foldl_cons]
    by_cases hacc : accept a = true
    · by_cases hkey : keyOf a = k
      · have hstep : insertArtist accept mk m a = setKV m k (mk a) := by
          unfold insertArtist
          rw [if_pos hacc, hkey]
        have hfa : (accept a && (keyOf a == k)) = true := by
          rw [hacc, hkey, beq_self_eq_true, Bool.and_true]
        rw [hstep, ih, List.filter_cons, if_pos hfa, List.getLast?_cons]
        cases hlast : (t.filter (fun a => accept a && (keyOf a == k))).getLast? with
        | some b => simp [hlast]
        | none => simp [hlast, lookup_setKV_same]
      · have hstep : insertArtist accept mk m a = setKV m (keyOf a) (mk a) := by
          unfold insertArtist
          rw [if_pos hacc]
        have hfa : (accept a && (keyOf a == k)) = false := by
          have hkf : (keyOf a == k) = false := by simpa using hkey
          rw [hkf, Bool.and_false]
        rw [hstep, ih, List.filter_cons,
          if_neg (by rw [hfa]; exact Bool.false_ne_true)]
        cases hlast : (t.filter (fun a => accept a && (keyOf a == k))).getLast? with
        | some b => simp [hlast]
        | none => simp [hlast, lookup_setKV_other m k (keyOf a) (mk a) hkey]
    · have hstep : insertArtist accept mk m a = m := by
        unfold insertArtist
        rw [if_neg hacc]
      have hfa : (accept a && (keyOf a == k)) = false := by
        have h2 : accept a = false := by
          rw [← Bool.not_eq_true]
          exact hacc
        rw [h2, Bool.false_and]
      rw [hstep, ih, List.filter_cons,
        if_neg (by rw [hfa]; exact Bool.false_ne_true)]

theorem nodup_keys_foldl (accept : RawArtist → Bool) (mk : RawArtist → ArtistRecord)
    (l : List RawArtist) (m : List (String × ArtistRecord))
    (h : (m.map Prod.fst).Nodup) :
    ((l.foldl (insertArtist accept mk) m).map Prod.fst).Nodup := by
  induction l generalizing m with
  | nil => exact h
  | cons a t ih =>
    rw [List.foldl_cons]
    apply ih
    unfold insertArtist
    by_cases hacc : accept a = true
    · rw [if_pos hacc]
      exact nodup_keys_setKV _ _ _ h
    · rw [if_neg hacc]
      exact h

theorem countP_key_of_lookup (m : List (String × ArtistRecord)) (k : String)
    (hnd : (m.map Prod.fst).Nodup) (v : ArtistRecord) (hl : lookupKV m k = some v) :
    m.countP (fun p => p.1 == k) = 1 := by
  induction m generalizing v with
  | nil => simp [lookupKV] at hl
  | cons p t ih =>
    rw [List.map_cons, List.nodup_cons] at hnd
    by_cases hp : (p.1 == k) = true
    · rw [List.countP_cons, if_pos hp]
      have ht0 : t.countP (fun q => q.1 == k) = 0 := by
        rw [List.countP_eq_zero]
        intro q hq hqk
        have hin : p.1 ∈ t.map Prod.fst := by
          rw [beq_iff_eq] at hp hqk
          rw [hp, ← hqk]
          exact List.mem_map_of_mem Prod.fst hq
        exact hnd.1 hin
      rw [ht0]
    · have hp2 : (p.1 == k) = false := by simpa using hp
      have hl2 : lookupKV t k = some v := by
        simp only [lookupKV, List.find?_cons] at hl
        rw [hp2] at hl
        exact hl
      rw [List.countP_cons, if_neg (by rw [hp2]; exact Bool.false_ne_true)]
      simpa using ih hnd.2 v hl2

theorem mem_foldl_insert (accept : RawArtist → Bool) (mk : RawArtist → ArtistRecord)
    (l : List RawArtist) (m : List (String × ArtistRecord))
    (p : String × ArtistRecord) (hp : p ∈ l.foldl (insertArtist accept mk) m) :
    p ∈ m ∨ ∃ a, accept a = true ∧ p = (keyOf a, mk a) := by
  induction l generalizing m with
  | nil => exact Or.inl hp
  | cons a t ih =>
    rw [List.foldl_cons] at hp
    rcases ih _ hp with h | h
    · unfold insertArtist at h
      by_cases hacc : accept a = true
      · rw [if_pos hacc] at h
        rcases mem_setKV _ _ _ _ h with h2 | h2
        · exact Or.inl h2
        · exact Or.inr ⟨a, hacc, h2⟩
      · rw [if_neg hacc] at h
        exact Or.inl h
    · exact Or.inr h

theorem ids_match_dedup (accept : RawArtist → Bool) (mk : RawArtist → ArtistRecord)
    (hmk : ∀ a, (mk a).id = keyOf a) (groups : List (List RawArtist))
    (p : String × ArtistRecord) (hp : p ∈ dedupLoop accept mk groups) :
    p.2.id = p.1 := by
  rw [dedupLoop_eq_foldl] at hp
  rcases mem_foldl_insert _ _ _ _ _ hp with h | ⟨a, -, rfl⟩
  · simp at h
  · exact hmk a

theorem countP_values_eq (accept : RawArtist → Bool) (mk : RawArtist → ArtistRecord)
    (hmk : ∀ a, (mk a).id = keyOf a) (groups : List (List RawArtist)) (i : String) :
    ((dedupLoop accept mk groups).map Prod.snd).countP (fun r => r.id == i) =
      (dedupLoop accept mk groups).countP (fun p => p.1 == i) := by
  rw [List.countP_map]
  apply List.countP_congr
  intro p hp
  have hid := ids_match_dedup accept mk hmk groups p hp
  simp [Function.comp, hid]

theorem countP_sortRank_le (l : List ArtistRecord) (q : ArtistRecord → Bool) :
    (sortRank l).countP q ≤ l.countP q :=
  le_trans (List.Sublist.countP_le q (List.take_sublist _ _))
    (le_of_eq (List.Perm.countP_eq q (List.mergeSort_perm l popDescend)))

theorem filter_accept_key (accept : RawArtist → Bool) (l : List RawArtist)
    (i : String) (hacc : ∀ a ∈ l, keyOf a = i → accept a = true) :
    l.filter (fun a => accept a && (keyOf a == i)) =
      l.filter (fun a => keyOf a == i) := by
  apply List.filter_congr
  intro a ha
  by_cases hk : keyOf a = i
  · rw [hacc a ha hk, Bool.true_and]
  · have hkf : (keyOf a == i) = false := by simpa using hk
    rw [hkf, Bool.and_false]

theorem sortRank_nil : sortRank [] = [] := by
  unfold sortRank
  rw [List.mergeSort_nil]
  rfl

theorem sortRank_singleton (r : ArtistRecord) : sortRank [r] = [r] := by
  unfold sortRank
  rw [List.mergeSort_singleton]
  rfl

/-- A raw artist with id "x" but no images: rejected by both acceptance
predicates. -/
def rawNoImage : RawArtist := ⟨some "x", some "No Image", some ⟨some 4⟩, some 70, none⟩

/-- A second fully-populated raw artist with the same id "x" as `rawX` but
different popularity and followers. -/
def rawXv2 : RawArtist := ⟨some "x", some "Artist X2", some ⟨some 5⟩, some 95, some [img64]⟩

/-- C2 counterexample: the id "x" appears (twice, in two distinct raw result
groups) in the input, yet the aggregated output of both variants contains
zero records for "x" — both occurrences fail the acceptance predicate (no
images), so no record is ever written.  The claim's "exactly one record for
that id" therefore fails as stated. -/
theorem dedup_exactly_one_cex :
    (([[rawNoImage], [rawNoImage]] : List (List RawArtist)).flatten.countP
      (fun a => a.id == some "x")) = 2 ∧
    getArtistsRankingAgg [[rawNoImage], [rawNoImage]] = [] ∧
    getRankedArtistsAgg [[rawNoImage], [rawNoImage]] = [] ∧
    (getArtistsRankingAgg [[rawNoImage], [rawNoImage]]).countP
      (fun r => r.id == "x") = 0 ∧
    (getRankedArtistsAgg [[rawNoImage], [rawNoImage]]).countP
      (fun r => r.id == "x") = 0 := by
  have hA : getArtistsRankingAgg [[rawNoImage], [rawNoImage]] = [] := by
    show sortRank ((dedupLoop acceptsA mkRecordA [[rawNoImage], [rawNoImage]]).map
      Prod.snd) = []
    rw [show (dedupLoop acceptsA mkRecordA [[rawNoImage], [rawNoImage]]).map Prod.snd
      = ([] : List ArtistRecord) from rfl, sortRank_nil]
  have hB : getRankedArtistsAgg [[rawNoImage], [rawNoImage]] = [] := by
    show sortRank ((dedupLoop acceptsB mkRecordB [[rawNoImage], [rawNoImage]]).map
      Prod.snd) = []
    rw [show (dedupLoop acceptsB mkRecordB [[rawNoImage], [rawNoImage]]).map Prod.snd
      = ([] : List ArtistRecord) from rfl, sortRank_nil]
  refine ⟨by decide, hA, hB, ?_, ?_⟩
  · rw [hA]
    rfl
  · rw [hB]
    rfl

/-- C2 (amended): whenever an artist id appears in the raw result groups
(once or several times, possibly across several groups) and every occurrence
of that id passes the acceptance predicate, the deduplicated map of either
variant holds exactly one entry for that id, and its record is built from the
last occurrence in iteration order (group order, then item order within each
group) — last write wins.  The final truncated output hence contains at most
one record with that id. -/
theorem dedup_last_write_wins (groups : List (List RawArtist)) (i : String)
    (hne : groups.flatten.filter (fun a => keyOf a == i) ≠ [])
    (haccA : ∀ a ∈ groups.flatten, keyOf a = i → acceptsA a = true)
    (haccB : ∀ a ∈ groups.flatten, keyOf a = i → acceptsB a = true) :
    (∃ last, (groups.flatten.filter (fun a => keyOf a == i)).getLast? = some last ∧
      lookupKV (dedupLoop acceptsA mkRecordA groups) i = some (mkRecordA last) ∧
      lookupKV (dedupLoop acceptsB mkRecordB groups) i = some (mkRecordB last)) ∧
    ((dedupLoop acceptsA mkRecordA groups).map Prod.snd).countP
      (fun r => r.id == i) = 1 ∧
    ((dedupLoop acceptsB mkRecordB groups).map Prod.snd).countP
      (fun r => r.id == i) = 1 ∧
    (getArtistsRankingAgg groups).countP (fun r => r.id == i) ≤ 1 ∧
    (getRankedArtistsAgg groups).countP (fun r => r.id == i) ≤ 1 := by
  obtain ⟨last, hlast⟩ :
      ∃ x, (groups.flatten.filter (fun a => keyOf a == i)).getLast? = some x := by
    cases h : (groups.flatten.filter (fun a => keyOf a == i)).getLast? with
    | some x => exact ⟨x, rfl⟩
    | none => exact absurd (List.getLast?_eq_none_iff.mp h) hne
  have hA : lookupKV (dedupLoop acceptsA mkRecordA groups) i = some (mkRecordA last) := by
    rw [dedupLoop_eq_foldl, lookup_foldl_insert,
      filter_accept_key acceptsA _ i haccA, hlast]
  have hB : lookupKV (dedupLoop acceptsB mkRecordB groups) i = some (mkRecordB last) := by
    rw [dedupLoop_eq_foldl, lookup_foldl_insert,
      filter_accept_key acceptsB _ i haccB, hlast]
  have hndA : ((dedupLoop acceptsA mkRecordA groups).map Prod.fst).Nodup := by
    rw [dedupLoop_eq_foldl]
    exact nodup_keys_foldl _ _ _ _ (by simp)
  have hndB : ((dedupLoop acceptsB mkRecordB groups).map Prod.fst).Nodup := by
    rw [dedupLoop_eq_foldl]
    exact nodup_keys_foldl _ _ _ _ (by simp)
  have hvalA : ((dedupLoop acceptsA mkRecordA groups).map Prod.snd).countP
      (fun r => r.id == i) = 1 := by
    rw [countP_values_eq acceptsA mkRecordA (fun a => rfl) groups i]
    exact countP_key_of_lookup _ i hndA _ hA
  have hvalB : ((dedupLoop acceptsB mkRecordB groups).map Prod.snd).countP
      (fun r => r.id == i) = 1 := by
    rw [countP_values_eq acceptsB mkRecordB (fun a => rfl) groups i]
    exact countP_key_of_lookup _ i hndB _ hB
  refine ⟨⟨last, hlast, hA, hB⟩, hvalA, hvalB, ?_, ?_⟩
  · exact le_trans (countP_sortRank_le _ _) (le_of_eq hvalA)
  · exact le_trans (countP_sortRank_le _ _) (le_of_eq hvalB)

/-- Witness for the amended C2 at a concrete input: id "x" occurs in two
groups, all occurrences accepted; the stored record is the one built from the
second (last) occurrence. -/
theorem dedup_last_write_wins_witness :
    (([[rawX], [rawXv2]] : List (List RawArtist)).flatten.filter
      (fun a => keyOf a == "x") ≠ []) ∧
    (∃ last, (([[rawX], [rawXv2]] : List (List RawArtist)).flatten.filter
        (fun a => keyOf a == "x")).getLast? = some last ∧
      lookupKV (dedupLoop acceptsA mkRecordA [[rawX], [rawXv2]]) "x"
        = some (mkRecordA last) ∧
      lookupKV (dedupLoop acceptsB mkRecordB [[rawX], [rawXv2]]) "x"
        = some (mkRecordB last)) :=
  ⟨by decide,
    (dedup_last_write_wins [[rawX], [rawXv2]] "x" (by decide) (by decide)
      (by decide)).1⟩

theorem dedupLoop_all_nil (accept : RawArtist → Bool) (mk : RawArtist → ArtistRecord)
    (groups : List (List RawArtist)) (h : ∀ g ∈ groups, g = []) :
    dedupLoop accept mk groups = [] := by
  rw [dedupLoop_eq_foldl, show groups.flatten = [] from List.flatten_eq_nil_iff.mpr h]
  rfl

/-- C3 counterexample: a successfully fetched payload whose `artists` object
is present but carries no `items` list.  In `getRankedArtists` the slot
resolves to `undefined` (`none`) — not an empty group — and the aggregation
aborts with an error instead of yielding a ranking, so "caught locally,
contributes an empty result group, never aborting" fails there.
`getArtistsRanking` tolerates the same payload thanks to its `|| []`. -/
theorem fanout_malformed_aborts_cex :
    slotB (Except.ok ⟨some ⟨none⟩⟩) = none ∧
    computeB [Except.ok ⟨some ⟨none⟩⟩] = Except.error () ∧
    computeA [Except.ok ⟨some ⟨none⟩⟩] = [] := by
  refine ⟨rfl, rfl, ?_⟩
  show sortRank ((dedupLoop acceptsA mkRecordA
    ([Except.ok ⟨some ⟨none⟩⟩].map slotA)).map Prod.snd) = []
  rw [show (dedupLoop acceptsA mkRecordA
    ([Except.ok ⟨some ⟨none⟩⟩].map slotA)).map Prod.snd
    = ([] : List ArtistRecord) from rfl, sortRank_nil]

/-- C3 (amended): every rejected fan-out request (network error, non-success
status) is caught locally and contributes an empty result group in both
variants, and a payload lacking the `artists` object also contributes an
empty group; in particular, when every fan-out request fails, both
aggregations yield an empty ranking rather than an error.  (The only escape
is a success payload whose `artists` object lacks `items`, which aborts
`getRankedArtists` — see the counterexample.) -/
theorem fanout_failures_tolerated (responses : List (Except Unit SearchPayload))
    (hall : ∀ r ∈ responses, r = Except.error ()) :
    (∀ e : Unit, slotA (Except.error e) = [] ∧ slotB (Except.error e) = some []) ∧
    (∀ p : SearchPayload, p.artists = none →
      slotA (Except.ok p) = [] ∧ slotB (Except.ok p) = some []) ∧
    computeA responses = [] ∧
    computeB responses = Except.ok [] := by
  refine ⟨fun e => ⟨rfl, rfl⟩, fun p hp => ?_, ?_, ?_⟩
  · constructor
    · show (match p.artists with
        | none => []
        | some pg => pg.items.getD []) = []
      rw [hp]
    · show (match p.artists with
        | none => some []
        | some pg => pg.items) = some []
      rw [hp]
  · have hgroups : ∀ g ∈ responses.map slotA, g = [] := by
      intro g hg
      rcases List.mem_map.mp hg with ⟨r, hr, rfl⟩
      rw [hall r hr]
      rfl
    show sortRank ((dedupLoop acceptsA mkRecordA (responses.map slotA)).map
      Prod.snd) = []
    rw [dedupLoop_all_nil _ _ _ hgroups]
    exact sortRank_nil
  · show processPagesB (responses.map slotB) = Except.ok []
    have hall2 : (responses.map slotB).all (fun o => o.isSome) = true := by
      rw [List.all_eq_true]
      intro o ho
      rcases List.mem_map.mp ho with ⟨r, hr, rfl⟩
      rw [hall r hr]
      rfl
    unfold processPagesB
    rw [if_pos hall2]
    have hgroups : ∀ g ∈ (responses.map slotB).map (fun o => o.getD []), g = [] := by
      intro g hg
      rcases List.mem_map.mp hg with ⟨o, ho, rfl⟩
      rcases List.mem_map.mp ho with ⟨r, hr, rfl⟩
      rw [hall r hr]
      rfl
    have hagg : getRankedArtistsAgg ((responses.map slotB).map (fun o => o.getD []))
        = [] := by
      show sortRank ((dedupLoop acceptsB mkRecordB _).map Prod.snd) = []
      rw [dedupLoop_all_nil _ _ _ hgroups]
      exact sortRank_nil
    rw [hagg]

/-- Witness for the amended C3: a single failed request yields the empty
ranking in both variants. -/
theorem fanout_failures_tolerated_witness :
    (∀ r ∈ [(Except.error () : Except Unit SearchPayload)], r = Except.error ()) ∧
    computeA [Except.error ()] = [] ∧
    computeB [Except.error ()] = Except.ok [] := by
  have h : ∀ r ∈ [(Except.error () : Except Unit SearchPayload)],
      r = Except.error () := by
    intro r hr
    simpa using hr
  obtain ⟨-, -, h3, h4⟩ := fanout_failures_tolerated [Except.error ()] h
  exact ⟨h, h3, h4⟩

/-- A concrete artist record for cache witnesses. -/
def recX : ArtistRecord := ⟨"x", "Artist X", some 3, 90, some "urlA"⟩

theorem getArtistsRankingA_fresh (env : FanoutEnv) (now after : Nat)
    (s : CacheState) (r : List ArtistRecord) (hc : s.cachedRanking = some r)
    (h : now < s.lastCacheTime + CACHE_LIFETIME) :
    getArtistsRankingA env now after s = (Except.ok r, s, false) := by
  have hsome : s.cachedRanking.isSome = true := by
    rw [hc]
    rfl
  unfold getArtistsRankingA
  rw [if_pos ⟨hsome, h⟩, hc]
  rfl

theorem artistsRankingRouteB_fresh (env : FanoutEnv) (now : Nat)
    (s : CacheState) (r : List ArtistRecord) (hc : s.cachedRanking = some r)
    (h : now < s.lastCacheTime + CACHE_LIFETIME) :
    artistsRankingRouteB env now s = (RankingResponse.payload r, s, false) := by
  have hsome : s.cachedRanking.isSome = true := by
    rw [hc]
    rfl
  unfold artistsRankingRouteB
  rw [if_pos ⟨hsome, h⟩, hc]
  rfl

/-- C4: when a cached ranking exists and both call instants fall within the
cache lifetime of its computation timestamp, the first server's
`getArtistsRanking` and the second server's ranking route serve the cached
value with no side effect: both of two successive calls (any environments)
return the identical ranking, leave the cache state — including
`lastCacheTime` — unchanged, and trigger no fan-out/recomputation. -/
theorem cache_fresh_no_recompute (env env2 : FanoutEnv) (t1 t1' t2 t2' : Nat)
    (s : CacheState) (r : List ArtistRecord)
    (hc : s.cachedRanking = some r)
    (h1 : t1 < s.lastCacheTime + CACHE_LIFETIME)
    (h2 : t2 < s.lastCacheTime + CACHE_LIFETIME) :
    getArtistsRankingA env t1 t1' s = (Except.ok r, s, false) ∧
    getArtistsRankingA env2 t2 t2' s = (Except.ok r, s, false) ∧
    artistsRankingRouteB env t1 s = (RankingResponse.payload r, s, false) ∧
    artistsRankingRouteB env2 t2 s = (RankingResponse.payload r, s, false) :=
  ⟨getArtistsRankingA_fresh env t1 t1' s r hc h1,
   getArtistsRankingA_fresh env2 t2 t2' s r hc h2,
   artistsRankingRouteB_fresh env t1 s r hc h1,
   artistsRankingRouteB_fresh env2 t2 s r hc h2⟩

/-- Witness for C4 at a concrete fresh cache. -/
theorem cache_fresh_no_recompute_witness :
    ((⟨some [recX], 5⟩ : CacheState).cachedRanking = some [recX]) ∧
    (10 < (⟨some [recX], 5⟩ : CacheState).lastCacheTime + CACHE_LIFETIME) ∧
    (20 < (⟨some [recX], 5⟩ : CacheState).lastCacheTime + CACHE_LIFETIME) ∧
    getArtistsRankingA ⟨true, []⟩ 10 11 ⟨some [recX], 5⟩
      = (Except.ok [recX], ⟨some [recX], 5⟩, false) ∧
    getArtistsRankingA ⟨false, []⟩ 20 21 ⟨some [recX], 5⟩
      = (Except.ok [recX], ⟨some [recX], 5⟩, false) :=
  ⟨rfl, by decide, by decide,
    (cache_fresh_no_recompute ⟨true, []⟩ ⟨false, []⟩ 10 11 20 21
      ⟨some [recX], 5⟩ [recX] rfl (by decide) (by decide)).1,
    (cache_fresh_no_recompute ⟨true, []⟩ ⟨false, []⟩ 10 11 20 21
      ⟨some [recX], 5⟩ [recX] rfl (by decide) (by decide)).2.1⟩

theorem getArtistsRankingA_token_fail (env : FanoutEnv) (now after : Nat)
    (s : CacheState)
    (hstale : ¬(s.cachedRanking.isSome = true ∧ now < s.lastCacheTime + CACHE_LIFETIME))
    (htok : env.tokenOk = false) :
    getArtistsRankingA env now after s = (Except.error (), s, false) := by
  unfold getArtistsRankingA
  rw [if_neg hstale, if_neg (by rw [htok]; exact Bool.false_ne_true)]

/-- C5: if the cache is stale and the recomputation fails (a token-provider
failure, or any failure of `getRankedArtists`), the previously cached
ranking and its timestamp are left unchanged — the stale entry is retained,
never cleared — and the error surfaces to the immediate caller as a server
error (500) response, in both server variants. -/
theorem cache_failure_preserves_state (env : FanoutEnv) (now after : Nat)
    (s : CacheState) (r0 : List ArtistRecord)
    (hprev : s.cachedRanking = some r0)
    (hstale : ¬(s.cachedRanking.isSome = true ∧ now < s.lastCacheTime + CACHE_LIFETIME))
    (hfail : getRankedArtistsB env = Except.error ()) :
    artistsRankingRouteB env now s
      = (RankingResponse.serverError "Failed to retrieve artist ranking.", s, true) ∧
    (artistsRankingRouteB env now s).2.1.cachedRanking = some r0 ∧
    (artistsRankingRouteB env now s).2.1.lastCacheTime = s.lastCacheTime ∧
    (env.tokenOk = false →
      getArtistsRankingA env now after s = (Except.error (), s, false) ∧
      artistsRankingRouteA env now after s
        = (RankingResponse.serverError "Something went wrong.", s, false)) := by
  have hB : artistsRankingRouteB env now s
      = (RankingResponse.serverError "Failed to retrieve artist ranking.", s, true) := by
    unfold artistsRankingRouteB
    rw [if_neg hstale, hfail]
  refine ⟨hB, ?_, ?_, fun htok => ?_⟩
  · rw [hB]
    exact hprev
  · rw [hB]
  · have hA := getArtistsRankingA_token_fail env now after s hstale htok
    refine ⟨hA, ?_⟩
    unfold artistsRankingRouteA
    rw [hA]

/-- Witness for C5 at a concrete stale cache and failing token provider. -/
theorem cache_failure_preserves_state_witness :
    ((⟨some [recX], 0⟩ : CacheState).cachedRanking = some [recX]) ∧
    (¬((⟨some [recX], 0⟩ : CacheState).cachedRanking.isSome = true ∧
      CACHE_LIFETIME < (⟨some [recX], 0⟩ : CacheState).lastCacheTime + CACHE_LIFETIME)) ∧
    getRankedArtistsB ⟨false, []⟩ = Except.error () ∧
    artistsRankingRouteB ⟨false, []⟩ CACHE_LIFETIME ⟨some [recX], 0⟩
      = (RankingResponse.serverError "Failed to retrieve artist ranking.",
         ⟨some [recX], 0⟩, true) :=
  ⟨rfl, by decide, rfl,
    (cache_failure_preserves_state ⟨false, []⟩ CACHE_LIFETIME 0
      ⟨some [recX], 0⟩ [recX] rfl (by decide) rfl).1⟩

/-- C6 counterexample: with a current ranking whose entry at 1-based
position 1 has id "x", the express lookup computes rank 1, but the
standalone serverless handler's successful response for the same artist
carries rankInTop100 = -1 ≠ 1 (its code hardwires -1, "Let frontend compare
with list if needed"). -/
theorem handler_rank_cex :
    rankLookupA [recX] (some "x") = 1 ∧
    (handlerRoute "GET" (some "x") ⟨true, Except.ok (some rawX), Except.ok [recX]⟩).1
      = LookupResponse.found "x" "Artist X" 90 3 "urlA" (-1) ∧
    handlerRankInTop100 rawX = -1 ∧ ((-1 : Int) ≠ 1) := by decide

/-- C6 (amended): in the express lookup route, `rankInTop100` equals the
1-based position of the found artist's id in the current ranking when the id
occurs there (at position j+1, with no earlier occurrence), and -1 when the
id is absent; the standalone serverless handler instead always reports -1,
regardless of any ranking. -/
theorem lookup_rank_correct (ranking : List ArtistRecord) (aid : Option String)
    (j : Nat) (hj : j < ranking.length)
    (hmatch : aid = some ((ranking.get ⟨j, hj⟩).id))
    (hfirst : ∀ i (hi : i < j), aid ≠ some ((ranking.get ⟨i, Nat.lt_trans hi hj⟩).id)) :
    rankLookupA ranking aid = (j : Int) + 1 ∧
    (∀ (l : List ArtistRecord) (b : Option String),
      (∀ q ∈ l, b ≠ some q.id) → rankLookupA l b = -1) ∧
    (∀ artist : RawArtist, handlerRankInTop100 artist = -1) := by
  refine ⟨?_, ?_, fun artist => rfl⟩
  · have hfind : ranking.findIdx? (fun q => aid == some q.id) = some j := by
      rw [List.findIdx?_eq_some_iff_getElem]
      refine ⟨hj, ?_, ?_⟩
      · rw [hmatch]
        exact beq_self_eq_true _
      · intro i hij
        have hne := hfirst i hij
        intro hbeq
        exact hne (beq_iff_eq.mp hbeq)
    unfold rankLookupA findIndexJS
    rw [hfind]
    have hpos : (0 : Int) < (j : Int) + 1 := by omega
    rw [if_pos hpos]
  · intro l b hb
    have hnone : l.findIdx? (fun q => b == some q.id) = none := by
      rw [List.findIdx?_eq_none_iff]
      intro x hx
      have hne := hb x hx
      rw [beq_eq_false_iff_ne]
      exact hne
    unfold rankLookupA findIndexJS
    rw [hnone]
    rfl

/-- Witness for the amended C6: artist id "x" at 1-based position 1. -/
theorem lookup_rank_correct_witness :
    (0 < ([recX] : List ArtistRecord).length) ∧
    rankLookupA [recX] (some "x") = (0 : Int) + 1 ∧
    rankLookupA [recX] (some "absent") = -1 := by
  have h := lookup_rank_correct [recX] (some "x") 0 (by decide) rfl
    (fun i hi => absurd hi (Nat.not_lt_zero i))
  exact ⟨by decide, h.1, h.2.1 [recX] (some "absent") (by decide)⟩

/-- C7 counterexample: `rawX` is accepted by `getArtistsRanking`'s predicate
and its image list holds a width-64 image with url "urlB", yet the record
built by `getArtistsRanking` stores the FIRST image's url "urlA" — not the
canonical choice. -/
theorem imageA_not_canonical_cex :
    acceptsA rawX = true ∧
    (mkRecordA rawX).imageUrl = some "urlA" ∧
    specCanonicalUrl (rawX.images.getD []) = some "urlB" ∧
    (mkRecordA rawX).imageUrl ≠ specCanonicalUrl (rawX.images.getD []) := by decide

theorem chooseImage_spec (l : List RawImage) (h : l ≠ []) (D : Option String) :
    (match chooseImage l with
      | some img => img.url
      | none => D) = specCanonicalUrl l := by
  unfold chooseImage specCanonicalUrl
  cases hf : l.find? (fun i => i.width == some 64) with
  | some i => simp [Option.orElse]
  | none =>
    cases hl : l.getLast? with
    | some g => simp [Option.orElse]
    | none => exact absurd (List.getLast?_eq_none_iff.mp hl) h

/-- C7 (amended): for every artist accepted by `getRankedArtists`, the
record's imageUrl follows the canonical rule (an image of width 64 if one
exists, else the last image, else the first); in `getArtistsRanking`,
however, the record's imageUrl is always the FIRST image's url. -/
theorem canonical_image_rule (a : RawArtist) (hB : acceptsB a = true) :
    (mkRecordB a).imageUrl = specCanonicalUrl (a.images.getD []) ∧
    (∀ b : RawArtist, (mkRecordA b).imageUrl
      = (b.images.getD []).head?.bind (fun i => i.url)) := by
  constructor
  · have hlen0 : 0 < (a.images.getD []).length := by
      by_contra hcon
      have hd : decide (0 < (a.images.getD []).length) = false := by
        simpa using hcon
      unfold acceptsB at hB
      rw [hd] at hB
      simp at hB
    have hne : (a.images.getD []) ≠ [] := List.length_pos.mp hlen0
    show (match chooseImage (a.images.getD []) with
      | some img => img.url
      | none => some "https://via.placeholder.com/150?text=No+Image")
      = specCanonicalUrl (a.images.getD [])
    exact chooseImage_spec _ hne _
  · intro b
    show ((b.images.bind (fun l => l.head?)).bind (fun i => i.url))
      = (b.images.getD []).head?.bind (fun i => i.url)
    cases hb : b.images with
    | none => rfl
    | some l => rfl

/-- Witness for the amended C7 at `rawX`: the second-variant record picks the
width-64 image's url. -/
theorem canonical_image_rule_witness :
    acceptsB rawX = true ∧
    (mkRecordB rawX).imageUrl = specCanonicalUrl (rawX.images.getD []) ∧
    (mkRecordB rawX).imageUrl = some "urlB" :=
  ⟨by decide, (canonical_image_rule rawX (by decide)).1, by decide⟩

theorem truthyInt_some (o : Option Int) (h : truthyInt o = true) :
    ∃ t, o = some t ∧ t ≠ 0 := by
  cases o with
  | none => simp [truthyInt] at h
  | some t => exact ⟨t, rfl, by simpa [truthyInt] using h⟩

theorem truthyStr_some (o : Option String) (h : truthyStr o = true) :
    ∃ s, o = some s ∧ s ≠ "" := by
  cases o with
  | none => simp [truthyStr] at h
  | some s => exact ⟨s, rfl, by simpa [truthyStr] using h⟩

theorem acceptsA_followers (a : RawArtist) (hA : acceptsA a = true) :
    truthyInt (a.followers.bind (fun f => f.total)) = true := by
  by_contra hcon
  have hd : truthyInt (a.followers.bind (fun f => f.total)) = false := by
    simpa using hcon
  unfold acceptsA at hA
  rw [hd] at hA
  simp at hA

theorem acceptsA_image (a : RawArtist) (hA : acceptsA a = true) :
    truthyStr ((a.images.bind (fun l => l.head?)).bind (fun i => i.url)) = true := by
  by_contra hcon
  have hd : truthyStr ((a.images.bind (fun l => l.head?)).bind (fun i => i.url))
      = false := by
    simpa using hcon
  unfold acceptsA at hA
  rw [hd] at hA
  simp at hA

/-- A raw artist with popularity 150 — out of the documented 0..100 range —
that nonetheless passes both acceptance predicates. -/
def rawHighPop : RawArtist :=
  ⟨some "h", some "High", some ⟨some 5⟩, some 150, some [⟨some 10, some "u"⟩]⟩

/-- C8 counterexample: the acceptance predicates only check that popularity
is a number, so a raw artist with popularity 150 is accepted and its record
violates the claimed bound popularity <= 100. -/
theorem accept_range_cex :
    acceptsA rawHighPop = true ∧ acceptsB rawHighPop = true ∧
    (mkRecordA rawHighPop).popularity = 150 ∧
    ¬((mkRecordA rawHighPop).popularity ≤ 100) := by decide

/-- C8 (amended): accepted records copy their numeric fields verbatim from
the raw payload.  With acceptance as the only assumption,
`getArtistsRanking`'s predicate guarantees a present non-empty imageUrl and
a present non-zero followers count unconditionally; the bounds
0 <= popularity <= 100 hold exactly when the raw popularity is in range, and
followers >= 1 holds exactly when the raw (non-zero) count is non-negative —
the predicate checks presence and truthiness only, never ranges. -/
theorem accepted_record_bounds (a : RawArtist) (hA : acceptsA a = true) :
    (∃ u, (mkRecordA a).imageUrl = some u ∧ u ≠ "") ∧
    (∃ t, (mkRecordA a).followers = some t ∧ t ≠ 0 ∧ (1 ≤ t ↔ 0 ≤ t)) ∧
    (mkRecordA a).popularity = a.popularity.getD 0 ∧
    (mkRecordA a).followers = a.followers.bind (fun f => f.total) ∧
    ((0 ≤ (mkRecordA a).popularity ∧ (mkRecordA a).popularity ≤ 100) ↔
      (0 ≤ a.popularity.getD 0 ∧ a.popularity.getD 0 ≤ 100)) := by
  refine ⟨?_, ?_, rfl, rfl, Iff.rfl⟩
  · obtain ⟨u, hu, huz⟩ := truthyStr_some _ (acceptsA_image a hA)
    exact ⟨u, hu, huz⟩
  · obtain ⟨t, ht, htz⟩ := truthyInt_some _ (acceptsA_followers a hA)
    exact ⟨t, ht, htz, ⟨fun h1 => by omega, fun h0 => by omega⟩⟩

/-- Witness for the amended C8 at the out-of-range `rawHighPop` (the
counterexample's own input): acceptance alone yields the presence and
non-emptiness guarantees, while the popularity bound fails exactly because
the raw value 150 is out of range. -/
theorem accepted_record_bounds_witness :
    acceptsA rawHighPop = true ∧
    (∃ u, (mkRecordA rawHighPop).imageUrl = some u ∧ u ≠ "") ∧
    (∃ t, (mkRecordA rawHighPop).followers = some t ∧ t ≠ 0 ∧ (1 ≤ t ↔ 0 ≤ t)) :=
  ⟨by decide,
    (accepted_record_bounds rawHighPop (by decide)).1,
    (accepted_record_bounds rawHighPop (by decide)).2.1⟩

/-- C9 counterexample: a whitespace-only name " " is truthy in JavaScript,
so the lookup is NOT rejected: the request proceeds past the guard into
token acquisition and the upstream search (flag true) and, in a successful
environment, answers with a found payload rather than a 400 client error. -/
theorem whitespace_name_cex :
    searchRouteA (some " ") ⟨true, Except.ok (some rawX), Except.ok []⟩
      = (LookupResponse.found "x" "Artist X" 90 3 "urlA" (-1), true) ∧
    (handlerRoute "GET" (some " ") ⟨true, Except.ok (some rawX), Except.ok []⟩).2
      = true := by decide

/-- C9 (amended): a missing or empty-string name parameter is rejected with
a 400 client error before any network interaction (no token fetch and no
upstream search), in both the express route and the serverless handler; a
whitespace-only name is truthy and is NOT rejected (see counterexample). -/
theorem empty_name_rejected (name : Option String) (env : LookupEnv)
    (h : name = none ∨ name = some "") :
    searchRouteA name env
      = (LookupResponse.badRequest "No artist name provided", false) ∧
    handlerRoute "GET" name env
      = (LookupResponse.badRequest "No artist name provided", false) := by
  rcases h with rfl | rfl
  · exact ⟨rfl, rfl⟩
  · exact ⟨rfl, rfl⟩

/-- Witness for the amended C9 at a concrete environment. -/
theorem empty_name_rejected_witness :
    ((none : Option String) = none ∨ (none : Option String) = some "") ∧
    searchRouteA none ⟨true, Except.ok (some rawX), Except.ok []⟩
      = (LookupResponse.badRequest "No artist name provided", false) :=
  ⟨Or.inl rfl,
    (empty_name_rejected none ⟨true, Except.ok (some rawX), Except.ok []⟩
      (Or.inl rfl)).1⟩

/-- A raw artist whose followers.total is -1: truthy, hence accepted. -/
def rawNegFollowers : RawArtist :=
  ⟨some "z", some "Neg", some ⟨some (-1)⟩, some 50, some [⟨none, some "u"⟩]⟩

/-- C10 counterexample: followers.total = -1 is truthy (only 0 is falsy), so
the artist is accepted and the stored record has followers -1 < 1, refuting
"followers >= 1" for arbitrary numeric payloads. -/
theorem followers_negative_cex :
    acceptsA rawNegFollowers = true ∧
    (mkRecordA rawNegFollowers).followers = some (-1) ∧
    ((-1 : Int) < 1) := by decide

/-- C10 (amended): every record in a ranking produced by `getArtistsRanking`
has a present, non-zero followers count — hence followers >= 1 whenever the
upstream count is non-negative — and a raw artist whose followers.total is 0
is silently dropped: the map write is skipped and the map is unchanged, so a
record with followers 0 can never appear in the Ranking. -/
theorem followers_nonzero_in_ranking (groups : List (List RawArtist))
    (r : ArtistRecord) (hr : r ∈ getArtistsRankingAgg groups) :
    (∃ t, r.followers = some t ∧ t ≠ 0 ∧ (0 ≤ t → 1 ≤ t)) ∧
    (∀ (m : List (String × ArtistRecord)) (a : RawArtist),
      a.followers.bind (fun f => f.total) = some 0 →
      insertArtist acceptsA mkRecordA m a = m) := by
  constructor
  · have hr2 : r ∈ (dedupLoop acceptsA mkRecordA groups).map Prod.snd :=
      (List.mergeSort_perm _ popDescend).subset ((List.take_sublist _ _).subset hr)
    rcases List.mem_map.mp hr2 with ⟨p, hp, hpr⟩
    rw [dedupLoop_eq_foldl] at hp
    rcases mem_foldl_insert _ _ _ _ _ hp with hmem | ⟨a, hacc, rfl⟩
    · simp at hmem
    · obtain ⟨t, ht, htz⟩ := truthyInt_some _ (acceptsA_followers a hacc)
      refine ⟨t, ?_, htz, fun h0 => by omega⟩
      rw [← hpr]
      exact ht
  · intro m a h0
    have hf : acceptsA a = false := by
      unfold acceptsA
      rw [h0]
      simp [truthyInt]
    unfold insertArtist
    rw [if_neg (by rw [hf]; exact Bool.false_ne_true)]

/-- Witness for the amended C10: the single accepted artist `rawX` lands in
the ranking with followers 3 >= 1. -/
theorem followers_nonzero_in_ranking_witness :
    (mkRecordA rawX ∈ getArtistsRankingAgg [[rawX]]) ∧
    (∃ t, (mkRecordA rawX).followers = some t ∧ t ≠ 0 ∧ (0 ≤ t → 1 ≤ t)) := by
  have hmem : mkRecordA rawX ∈ getArtistsRankingAgg [[rawX]] := by
    have h1 : getArtistsRankingAgg [[rawX]] = [mkRecordA rawX] := by
      show sortRank ((dedupLoop acceptsA mkRecordA [[rawX]]).map Prod.snd)
        = [mkRecordA rawX]
      rw [show (dedupLoop acceptsA mkRecordA [[rawX]]).map Prod.snd
        = [mkRecordA rawX] from rfl, sortRank_singleton]
    rw [h1]
    exact List.mem_singleton.mpr rfl
  exact ⟨hmem, (followers_nonzero_in_ranking [[rawX]] (mkRecordA rawX) hmem).1⟩

end SpotifyRanker
